import Mathlib

/-!
Verification of the Gitpod task-terminal reconciliation layer, a shallow
embedding of
`components/theia/packages/gitpod-extension/src/browser/gitpod-task-contribution.ts`.

Strings are embedded as `List Char` (`Str`) so that the JavaScript
`String.prototype.split` used by `getTaskId` can be modelled exactly and
reasoned about by induction.  Remote terminal ids are embedded as `Int`,
with the Theia sentinel `-1` meaning "no underlying process".
-/

namespace GitpodTaskContrib

/-- Character lists stand in for JavaScript strings. -/
abbrev Str := List Char

/-- Modelled from the spec: the task states of `gitpod-task-protocol` (not
under `src/`); the spec names RUNNING and CLOSED and "other non-terminal
states", represented here by `opening`. -/
inductive GitpodTaskState
  | opening
  | running
  | closed
  deriving DecidableEq, Repr

/-- The `presentation` payload of a task: its display name and the requested
placement (`openIn` / `openMode`); the placement fields are optional and, as
in JavaScript, an empty string counts as absent (falsy). -/
structure TaskPresentation where
  name : Str
  openIn : Option Str
  openMode : Option Str
  deriving DecidableEq, Repr

/-- A Gitpod task as pushed by the snapshot source: identity, lifecycle
state, optional remote-terminal reference, optional presentation. -/
structure GitpodTask where
  id : Str
  state : GitpodTaskState
  terminal : Option Str
  presentation : Option TaskPresentation
  deriving DecidableEq, Repr

/-- JavaScript `s.split(sep)` for a one-character separator: the list of
(possibly empty) chunks between occurrences of `sep`.  `[].split = [[]]`,
matching `''.split(':') === ['']`. -/
def splitOnChar (sep : Char) : Str → List Str
  | [] => [[]]
  | c :: cs =>
    match splitOnChar sep cs with
    | [] => [[c]]
    | w :: ws => if c = sep then [] :: w :: ws else (c :: w) :: ws

/-- The constant `idPrefix` of namespace `GitpodTaskTerminalWidget`. -/
def idPref : Str := ("gitpod-task-terminal").toList

/-- `GitpodTaskTerminalWidget.toTerminalId`: `idPrefix + ':' + id`. -/
def toTerminalId (id : Str) : Str := idPref ++ ':' :: id

/-- `GitpodTaskTerminalWidget.getTaskId`: `terminal.id.split(':')[1]`,
`none` standing for the JavaScript `undefined` an out-of-range index
yields. -/
def getTaskId (terminalId : Str) : Option Str := (splitOnChar ':' terminalId).get? 1


/-! ## The per-terminal lifecycle guard

`onWillCreateWidget` installs, per task-bound terminal widget, a closure
state: the wrapped `attachTerminal`, the wrapped `start` with its `starting`
flag, `attachToTask` with its `attachingToTask` flag, and the last-seen
`task`.  `BindingState` is that closure state together with the widget's
`terminalId` (Theia initialises it to `-1`) and its disposed flag. -/

/-- Models the external Theia collaborator `IBaseTerminalServer.validateId`:
a remote terminal id is valid iff it is a number other than `-1`, the
widget's sentinel for "no underlying process". -/
def validateId (id : Int) : Bool := id != -1

/-- The closure state installed on one task-bound terminal widget. -/
structure BindingState where
  starting : Bool
  attaching : Bool
  task : Option GitpodTask
  terminalId : Int
  disposed : Bool
  deriving DecidableEq, Repr

/-- Outcome of invoking the wrapped `start`. -/
inductive StartCallResult
  | started
  | errorAlreadyStarting
  deriving DecidableEq, Repr

/-- The wrapped `start`: throws the re-entrancy error when a start is
already in flight, otherwise sets `starting` and forwards to the widget's
own `start`. -/
def startWrapped (b : BindingState) : BindingState × StartCallResult :=
  if b.starting then (b, StartCallResult.errorAlreadyStarting)
  else ({ b with starting := true }, StartCallResult.started)

/-- Outcome of invoking `attachToTask`. -/
inductive AttachCallResult
  | issued
  | errorAlreadyAttaching
  deriving DecidableEq, Repr

/-- `attachToTask`: throws the re-entrancy error when an attach is already
in flight, otherwise sets `attachingToTask` and issues `server.attach`. -/
def attachToTask (b : BindingState) : BindingState × AttachCallResult :=
  if b.attaching then (b, AttachCallResult.errorAlreadyAttaching)
  else ({ b with attaching := true }, AttachCallResult.issued)

/-- Settlement of an in-flight `server.attach`: the `.then` handler resets
the flag on success; the `.catch` handler resets the flag and rethrows the
failure.  The second component records whether the failure is rethrown. -/
def attachResolved (b : BindingState) (success : Bool) : BindingState × Bool :=
  ({ b with attaching := false }, !success)

/-- The externally visible effect of one run of the closure `update`. -/
inductive UpdateAction
  | noop
  | dispose
  | startIssued
  | attachIssued (terminalId : Int) (remoteTerminal : Str)
  | raise
  deriving DecidableEq, Repr

/-- The closure `update`: dispose on CLOSED; otherwise, when the task is
RUNNING with a (truthy) remote terminal and neither guard flag is set,
start the widget when its remote id is invalid, else attach with
`{terminalId, remoteTerminal}`.  The calls go through the wrapped `start`
and `attachToTask`, whose re-entrancy errors would propagate as `raise`. -/
def updateFn (b : BindingState) : BindingState × UpdateAction :=
  match b.task with
  | Option.none => (b, UpdateAction.noop)
  | some t =>
    if t.state = GitpodTaskState.closed then
      ({ b with disposed := true }, UpdateAction.dispose)
    else
      match t.terminal with
      | Option.none => (b, UpdateAction.noop)
      | some rt =>
        if (t.state != GitpodTaskState.running) || rt.isEmpty || b.starting || b.attaching then
          (b, UpdateAction.noop)
        else if ¬ validateId b.terminalId then
          match startWrapped b with
          | (b', StartCallResult.started) => (b', UpdateAction.startIssued)
          | (_, StartCallResult.errorAlreadyStarting) => (b, UpdateAction.raise)
        else
          match attachToTask b with
          | (b', AttachCallResult.issued) => (b', UpdateAction.attachIssued b.terminalId rt)
          | (_, AttachCallResult.errorAlreadyAttaching) => (b, UpdateAction.raise)

/-- `terminal.applyTask`: record the snapshot, then re-evaluate. -/
def applyTask (b : BindingState) (updated : GitpodTask) : BindingState × UpdateAction :=
  updateFn { b with task := some updated }

/-- The first `onDidOpen` handler: `() => starting = false`. -/
def onDidOpenReset (b : BindingState) : BindingState := { b with starting := false }

/-- The surface's open signal: the reset handler runs, then the `update`
handler registered later re-evaluates. -/
def onDidOpenStep (b : BindingState) : BindingState × UpdateAction :=
  updateFn (onDidOpenReset b)

/-- The surface's open-failure signal: same two handlers as `onDidOpen`. -/
def onDidOpenFailureStep (b : BindingState) : BindingState × UpdateAction :=
  updateFn (onDidOpenReset b)

/-- The wrapped `attachTerminal` (C10): forward to the widget's own
`attachTerminal`; if the id it resolves with is invalid, create a fresh
underlying process instead and return its id.  The second component records
whether `createTerminal` was invoked. -/
def attachTerminalWrapped (attachResult : Int) (createResult : Int) : Int × Bool :=
  if validateId attachResult then (attachResult, false) else (createResult, true)

/-! ## The terminal binding table and batch application

`taskTerminals` maps a derived terminal identifier to its live widget;
`onWillCreateWidget` registers a widget and arranges removal on disposal,
and `updateTerminals` applies one snapshot batch, task by task, to the
bound widgets. -/

/-- The binding table `taskTerminals`, as an association list. -/
abbrev TermTable := List (Str × BindingState)

/-- `taskTerminals.get`. -/
def lookupT : TermTable → Str → Option BindingState
  | [], _ => Option.none
  | (k, b) :: rest, id => if k = id then some b else lookupT rest id

/-- `taskTerminals.delete`, run by the `onDidDispose` handler. -/
def eraseT : TermTable → Str → TermTable
  | [], _ => []
  | (k, b) :: rest, id => if k = id then eraseT rest id else (k, b) :: eraseT rest id

/-- In-place mutation of the binding a key holds (the closure state of the
widget mutates; `taskTerminals.set` overwrites on an existing key). -/
def setT : TermTable → Str → BindingState → TermTable
  | [], id, b => [(id, b)]
  | (k, b0) :: rest, id, b =>
    if k = id then (k, b) :: rest else (k, b0) :: setT rest id b

/-- `updateTerminals(tasks)`: for each task in batch order, look its derived
identifier up; absent bindings are skipped, present ones get `applyTask`.
A `dispose` action removes the binding from the table (the widget's
`onDidDispose` fires synchronously during `dispose`).  Returns the final
table and the per-task action log. -/
def updateTerminals : TermTable → List GitpodTask → TermTable × List (Str × UpdateAction)
  | table, [] => (table, [])
  | table, t :: ts =>
    let id := toTerminalId t.id
    match lookupT table id with
    | Option.none => updateTerminals table ts
    | some b =>
      let r := applyTask b t
      let table' := if r.2 = UpdateAction.dispose then eraseT table id else setT table id r.1
      let rest := updateTerminals table' ts
      (rest.1, (id, r.2) :: rest.2)

/-- A sequence of snapshot batches applied in arrival order (the update
serializer guarantees they never overlap; see the chain model below). -/
def processBatches : TermTable → List (List GitpodTask) → TermTable × List (Str × UpdateAction)
  | table, [] => (table, [])
  | table, batch :: more =>
    let r := updateTerminals table batch
    let rest := processBatches r.1 more
    (rest.1, r.2 ++ rest.2)

/-- How many times the log disposes the binding of a given identifier. -/
def disposeCount (log : List (Str × UpdateAction)) (id : Str) : Nat :=
  (log.filter fun e => decide (e.1 = id) && decide (e.2 = UpdateAction.dispose)).length

/-! ## The update serializer

`queue(update)` runs `this.updateQueue = this.updateQueue.then(update, update)`,
with `updateQueue` initialised to `pendingInitializeLayout.promise`.  Under
JavaScript promise semantics this is a single-lane chain: the `k`-th
enqueued function is scheduled exactly when its predecessor (the deferred
initial-layout gate for `k = 0`, the `k-1`-st function otherwise) has
settled — fulfilled or rejected alike, since the function is installed as
both the fulfilment and the rejection handler — and each link settles as
soon as its (synchronous) function returns or throws.  `ChainStep` is that
semantics as a small-step relation; `throws k` fixes whether the `k`-th
enqueued function throws. -/

/-- One link of the update chain: still pending, or already run (recording
whether its function threw). -/
inductive LinkState
  | waiting
  | ran (threw : Bool)
  deriving DecidableEq, Repr

/-- State of the serializer: whether `pendingInitializeLayout` has resolved,
and the links in enqueue order. -/
structure ChainState where
  gateSettled : Bool
  links : List LinkState
  deriving DecidableEq, Repr

/-- The `k`-th link's predecessor promise has settled: the gate for the
head link, the previous link (with either outcome) otherwise. -/
def predSettled (s : ChainState) : Nat → Prop
  | 0 => s.gateSettled = true
  | k + 1 => ∃ b, s.links[k]? = some (LinkState.ran b)

/-- Steps of the serializer: `pendingInitializeLayout.resolve()` at the end
of the initial-layout loop, `queue(...)` appending a link, and a scheduled
link running once its predecessor has settled. -/
inductive ChainStep (throws : Nat → Bool) : ChainState → ChainState → Prop
  | settleGate (l : List LinkState) :
      ChainStep throws ⟨false, l⟩ ⟨true, l⟩
  | enqueue (g : Bool) (l : List LinkState) :
      ChainStep throws ⟨g, l⟩ ⟨g, l ++ [LinkState.waiting]⟩
  | runJob (g : Bool) (l : List LinkState) (k : Nat) :
      l[k]? = some LinkState.waiting →
      predSettled ⟨g, l⟩ k →
      ChainStep throws ⟨g, l⟩ ⟨g, l.set k (LinkState.ran (throws k))⟩

/-- At construction the queue is exactly the unresolved gate promise. -/
def chainInit : ChainState := ⟨false, []⟩

/-- Reachability of a serializer state from construction. -/
def ChainReach (throws : Nat → Bool) : ChainState → Prop :=
  Relation.ReflTransGen (ChainStep throws) chainInit

/-- The `k`-th enqueued function has run (with either outcome). -/
def ranAt (s : ChainState) (k : Nat) : Prop :=
  ∃ b, s.links[k]? = some (LinkState.ran b)

/-! ## The initial layout reconciler

`onDidInitializeLayout` awaits the first snapshot, walks its tasks in
order, creates and places a widget for each non-closed task without a bound
surface, resolves the layout gate, and finally falls back to one default
terminal when no terminal at all exists.  `createFails id` fixes whether
the environment's `newTerminal` throws for that identifier. -/

/-- The `kind` option of a task-bound terminal. -/
def gitpodTaskKind : Str := ("gitpod-task").toList

/-- The default placement area, `task.presentation.openIn || 'bottom'`. -/
def defaultArea : Str := ("bottom").toList

/-- The default placement mode, `task.presentation.openMode || 'tab-after'`. -/
def defaultMode : Str := ("tab-after").toList

/-- JavaScript `x || d` on an optional string: `d` when the value is absent
or empty (falsy). -/
def orFalsy (o : Option Str) (d : Str) : Str :=
  match o with
  | Option.none => d
  | some s => if s.isEmpty then d else s

/-- The observable effects of the initial layout reconciler. -/
inductive LayoutAction
  | create (id : Str) (kind : Str) (title : Str) (useServerTitle : Bool)
  | activate (id : Str) (ref : Option Str) (area : Str) (mode : Str)
  | logError
  | createDefault
  | startDefault
  | openDefault
  deriving DecidableEq, Repr

/-- The closure state a freshly created widget starts with: no flags, no
task seen, Theia's `-1` terminal id, not disposed. -/
def newBinding : BindingState :=
  { starting := false, attaching := false, task := Option.none,
    terminalId := -1, disposed := false }

/-- The per-task loop of `onDidInitializeLayout`: skip CLOSED tasks; look
the derived identifier up; when absent, create the widget — which registers
it in the table via `onWillCreateWidget` — and place it relative to `ref`
with the task's requested area/mode or the defaults.  A per-task failure is
caught and logged, and which effects it leaves behind depends on where the
`try` body threw: a missing `presentation` (its `!`-access throws while the
options object is built) or a throwing `newTerminal` leaves `ref` and the
table unchanged, while a throwing `activateTerminal` occurs after
`newTerminal` already registered the widget, so the created widget stays in
the table and only the `ref` advance (which follows the placement) is
skipped.  When a bound widget already exists, just advance `ref`. -/
def layoutTasks (createFails activateFails : Str → Bool) :
    List GitpodTask → TermTable → Option Str → TermTable × List LayoutAction
  | [], table, _ => (table, [])
  | t :: ts, table, ref =>
    if t.state = GitpodTaskState.closed then
      layoutTasks createFails activateFails ts table ref
    else
      let id := toTerminalId t.id
      match lookupT table id with
      | some _ => layoutTasks createFails activateFails ts table (some id)
      | Option.none =>
        match t.presentation with
        | Option.none =>
          let r := layoutTasks createFails activateFails ts table ref
          (r.1, LayoutAction.logError :: r.2)
        | some p =>
          if createFails id then
            let r := layoutTasks createFails activateFails ts table ref
            (r.1, LayoutAction.logError :: r.2)
          else if activateFails id then
            let r := layoutTasks createFails activateFails ts (setT table id newBinding) ref
            (r.1, LayoutAction.create id gitpodTaskKind p.name false :: LayoutAction.logError :: r.2)
          else
            let r := layoutTasks createFails activateFails ts (setT table id newBinding) (some id)
            (r.1,
              LayoutAction.create id gitpodTaskKind p.name false ::
                LayoutAction.activate id ref (orFalsy p.openIn defaultArea)
                  (orFalsy p.openMode defaultMode) :: r.2)

/-- All of `onDidInitializeLayout` after the first snapshot arrived: the
per-task loop, then — when the UI holds no terminal surface of any kind
(`otherTerminals` counts the non-task ones) — create, start and open one
default terminal. -/
def onDidInitializeLayoutModel (createFails activateFails : Str → Bool) (tasks : List GitpodTask)
    (table : TermTable) (otherTerminals : Nat) : TermTable × List LayoutAction :=
  let r := layoutTasks createFails activateFails tasks table Option.none
  if otherTerminals + r.1.length = 0 then
    (r.1, r.2 ++ [LayoutAction.createDefault, LayoutAction.startDefault, LayoutAction.openDefault])
  else
    (r.1, r.2)

/-! ## Theorems -/

theorem splitOnChar_ne_nil (sep : Char) (l : Str) : splitOnChar sep l ≠ [] := by
  cases l with
  | nil => simp [splitOnChar]
  | cons c cs =>
    simp only [splitOnChar]
    rcases h : splitOnChar sep cs with _ | ⟨w, ws⟩
    · simp
    · by_cases hc : c = sep <;> simp [hc]

theorem splitOnChar_not_mem (sep : Char) (l : Str) (h : sep ∉ l) :
    splitOnChar sep l = [l] := by
  induction l with
  | nil => rfl
  | cons c cs ih =>
    have hc : c ≠ sep := fun hcs => h (hcs ▸ List.mem_cons_self c cs)
    have hcs : sep ∉ cs := fun hm => h (List.mem_cons_of_mem c hm)
    simp [splitOnChar, ih hcs, hc]

theorem splitOnChar_append (sep : Char) (p r : Str) (hp : sep ∉ p) :
    splitOnChar sep (p ++ sep :: r) = p :: splitOnChar sep r := by
  induction p with
  | nil =>
    simp only [List.nil_append, splitOnChar]
    rcases h : splitOnChar sep r with _ | ⟨w, ws⟩
    · exact absurd h (splitOnChar_ne_nil sep r)
    · simp
  | cons c cs ih =>
    have hc : c ≠ sep := fun hcs => hp (hcs ▸ List.mem_cons_self c cs)
    have hcs : sep ∉ cs := fun hm => hp (List.mem_cons_of_mem c hm)
    simp only [List.cons_append, splitOnChar, List.append_eq]
    rw [ih hcs]
    simp [hc]

/-- C7: the derived terminal identifier round-trips — for every task id in
which the separator `':'` does not occur, `getTaskId` applied to a terminal
whose id is `toTerminalId taskId` yields the original task id (the substring
after the separator). -/
theorem getTaskId_toTerminalId (taskId : Str) (h : ':' ∉ taskId) :
    getTaskId (toTerminalId taskId) = some taskId := by
  have hpre : ':' ∉ idPref := by decide
  simp [getTaskId, toTerminalId, splitOnChar_append ':' idPref taskId hpre,
    splitOnChar_not_mem ':' taskId h]

/-- C7 witness: the round-trip at the concrete task id `"t1"`. -/
theorem getTaskId_toTerminalId_witness :
    getTaskId (toTerminalId ('t' :: '1' :: [])) = some ('t' :: '1' :: []) :=
  getTaskId_toTerminalId ('t' :: '1' :: []) (by decide)

/-! ### Lifecycle guard theorems -/

/-- Exhaustive shape of one run of `update`: it returns without action,
disposes, issues one start (only with both guard flags clear, setting
`starting`), or issues one attach (only with both guard flags clear,
setting `attaching`); in particular it never propagates a re-entrancy
error. -/
theorem updateFn_shape (b : BindingState) :
    updateFn b = (b, UpdateAction.noop)
    ∨ updateFn b = ({ b with disposed := true }, UpdateAction.dispose)
    ∨ (b.starting = false ∧ b.attaching = false ∧
        updateFn b = ({ b with starting := true }, UpdateAction.startIssued))
    ∨ (b.starting = false ∧ b.attaching = false ∧
        ∃ rt, updateFn b = ({ b with attaching := true }, UpdateAction.attachIssued b.terminalId rt)) := by
  obtain ⟨bs, ba, btask, bid, bd⟩ := b
  rcases btask with _ | t
  · exact Or.inl rfl
  by_cases hc : t.state = GitpodTaskState.closed
  · exact Or.inr (Or.inl (by simp [updateFn, hc]))
  rcases ht : t.terminal with _ | rt
  · exact Or.inl (by simp [updateFn, hc, ht])
  by_cases hrun : t.state = GitpodTaskState.running
  · cases bs
    · cases ba
      · rcases rt with _ | ⟨c, rt'⟩
        · exact Or.inl (by simp [updateFn, hc, ht, hrun])
        · by_cases hid : validateId bid
          · refine Or.inr (Or.inr (Or.inr ⟨rfl, rfl, c :: rt', ?_⟩))
            simp [updateFn, hc, ht, hrun, hid, attachToTask]
          · refine Or.inr (Or.inr (Or.inl ⟨rfl, rfl, ?_⟩))
            simp [updateFn, hc, ht, hrun, hid, startWrapped]
      · exact Or.inl (by simp [updateFn, hc, ht])
    · exact Or.inl (by simp [updateFn, hc, ht])
  · exact Or.inl (by simp [updateFn, hc, ht, hrun])

/-- `update` on a binding whose task is CLOSED: dispose, whatever the guard
flags are. -/
theorem updateFn_closed (b : BindingState) (t : GitpodTask)
    (htask : b.task = some t) (hc : t.state = GitpodTaskState.closed) :
    updateFn b = ({ b with disposed := true }, UpdateAction.dispose) := by
  simp [updateFn, htask, hc]

/-- While `starting` is set, a re-evaluation of `update` performs no start,
no attach and raises nothing: it is a no-op or (on CLOSED) a dispose. -/
theorem updateFn_busy_starting (b : BindingState) (h : b.starting = true) :
    updateFn b = (b, UpdateAction.noop)
    ∨ updateFn b = ({ b with disposed := true }, UpdateAction.dispose) := by
  rcases updateFn_shape b with h1 | h1 | ⟨h1, _, _⟩ | ⟨h1, _, _⟩
  · exact Or.inl h1
  · exact Or.inr h1
  · rw [h] at h1; cases h1
  · rw [h] at h1; cases h1

/-- While `attaching` is set, a re-evaluation of `update` performs no start,
no attach and raises nothing: it is a no-op or (on CLOSED) a dispose. -/
theorem updateFn_busy_attaching (b : BindingState) (h : b.attaching = true) :
    updateFn b = (b, UpdateAction.noop)
    ∨ updateFn b = ({ b with disposed := true }, UpdateAction.dispose) := by
  rcases updateFn_shape b with h1 | h1 | ⟨_, h1, _⟩ | ⟨_, h1, _⟩
  · exact Or.inl h1
  · exact Or.inr h1
  · rw [h] at h1; cases h1
  · rw [h] at h1; cases h1

/-- While `starting` is set, `applyTask` performs no start, no attach and
raises nothing. -/
theorem applyTask_busy_starting (b : BindingState) (t' : GitpodTask) (h : b.starting = true) :
    (applyTask b t').2 = UpdateAction.noop ∨ (applyTask b t').2 = UpdateAction.dispose := by
  unfold applyTask
  rcases updateFn_busy_starting { b with task := some t' } h with h1 | h1 <;> rw [h1]
  · exact Or.inl rfl
  · exact Or.inr rfl

/-- While `attaching` is set, `applyTask` performs no start, no attach and
raises nothing. -/
theorem applyTask_busy_attaching (b : BindingState) (t' : GitpodTask) (h : b.attaching = true) :
    (applyTask b t').2 = UpdateAction.noop ∨ (applyTask b t').2 = UpdateAction.dispose := by
  unfold applyTask
  rcases updateFn_busy_attaching { b with task := some t' } h with h1 | h1 <;> rw [h1]
  · exact Or.inl rfl
  · exact Or.inr rfl

/-- The task used by the witnesses: RUNNING, with remote terminal `"r1"`. -/
def wTask : GitpodTask :=
  { id := 't' :: '1' :: [], state := GitpodTaskState.running,
    terminal := some ('r' :: '1' :: []), presentation := Option.none }

/-- Witness binding for the attach path: valid surface id `5`, flags clear. -/
def wAttachBinding : BindingState :=
  { starting := false, attaching := false, task := some wTask,
    terminalId := 5, disposed := false }

/-- Witness binding for the start path: invalid surface id, flags clear. -/
def wStartBinding : BindingState :=
  { starting := false, attaching := false, task := some wTask,
    terminalId := -1, disposed := false }

/-- C6: for a binding whose task is RUNNING with a remote terminal, whose
surface has a valid remote terminal id, and with neither guard flag set,
`update` issues exactly one attach, passing the surface's remote terminal
id and the task's remote-terminal reference; once `attaching` is set, a
re-evaluation issues no further attach. -/
theorem update_running_attaches (b : BindingState) (t : GitpodTask) (rt : Str)
    (htask : b.task = some t) (hrun : t.state = GitpodTaskState.running)
    (hterm : t.terminal = some rt) (hne : rt ≠ [])
    (hs : b.starting = false) (ha : b.attaching = false)
    (hid : validateId b.terminalId = true) :
    updateFn b = ({ b with attaching := true }, UpdateAction.attachIssued b.terminalId rt)
    ∧ ∀ t' i r, (applyTask { b with attaching := true } t').2 ≠ UpdateAction.attachIssued i r := by
  constructor
  · rcases rt with _ | ⟨c, rt'⟩
    · exact absurd rfl hne
    · simp [updateFn, htask, hrun, hterm, hs, ha, hid, attachToTask]
  · intro t' i r
    rcases applyTask_busy_attaching { b with attaching := true } t' rfl with h1 | h1 <;>
      simp [h1]

/-- C6 witness: the attach path at the concrete binding `wAttachBinding`. -/
theorem update_running_attaches_witness :
    updateFn wAttachBinding =
      ({ wAttachBinding with attaching := true },
        UpdateAction.attachIssued wAttachBinding.terminalId ('r' :: '1' :: []))
    ∧ ∀ t' i r, (applyTask { wAttachBinding with attaching := true } t').2 ≠
        UpdateAction.attachIssued i r :=
  update_running_attaches wAttachBinding wTask ('r' :: '1' :: [])
    rfl rfl rfl (by decide) rfl rfl (by decide)

/-- C4 (amended): for a binding whose task is RUNNING with a remote terminal
and no valid surface id, with neither guard flag set, `update` issues
exactly one start and sets `starting`; while `starting` is set a
re-evaluation through `applyTask` issues no second start and raises
nothing (it returns without action), and the re-entrancy error is raised
exactly when the wrapped `start` primitive itself is invoked again. -/
theorem update_running_starts_once (b : BindingState) (t : GitpodTask) (rt : Str)
    (htask : b.task = some t) (hrun : t.state = GitpodTaskState.running)
    (hterm : t.terminal = some rt) (hne : rt ≠ [])
    (hs : b.starting = false) (ha : b.attaching = false)
    (hid : validateId b.terminalId = false) :
    updateFn b = ({ b with starting := true }, UpdateAction.startIssued)
    ∧ (∀ t', (applyTask { b with starting := true } t').2 ≠ UpdateAction.startIssued
        ∧ (applyTask { b with starting := true } t').2 ≠ UpdateAction.raise)
    ∧ (startWrapped { b with starting := true }).2 = StartCallResult.errorAlreadyStarting := by
  refine ⟨?_, ?_, rfl⟩
  · rcases rt with _ | ⟨c, rt'⟩
    · exact absurd rfl hne
    · simp [updateFn, htask, hrun, hterm, hs, ha, hid, startWrapped]
  · intro t'
    rcases applyTask_busy_starting { b with starting := true } t' rfl with h1 | h1 <;>
      simp [h1]

/-- C4 witness: the start path at the concrete binding `wStartBinding`. -/
theorem update_running_starts_once_witness :
    updateFn wStartBinding = ({ wStartBinding with starting := true }, UpdateAction.startIssued)
    ∧ (∀ t', (applyTask { wStartBinding with starting := true } t').2 ≠ UpdateAction.startIssued
        ∧ (applyTask { wStartBinding with starting := true } t').2 ≠ UpdateAction.raise)
    ∧ (startWrapped { wStartBinding with starting := true }).2 =
        StartCallResult.errorAlreadyStarting :=
  update_running_starts_once wStartBinding wTask ('r' :: '1' :: [])
    rfl rfl rfl (by decide) rfl rfl (by decide)

/-- The concrete binding of the C4 counterexample: a start is in flight
(`starting = true`) for a RUNNING task with a remote terminal and no valid
surface id. -/
def cexStartingBinding : BindingState :=
  { starting := true, attaching := false, task := some wTask,
    terminalId := -1, disposed := false }

/-- C4 counterexample: a re-evaluation through `applyTask` while the start
is in flight returns without action (`noop`) — it does not raise the
re-entrancy error the claim requires it to raise. -/
theorem applyTask_while_starting_no_raise :
    applyTask cexStartingBinding wTask = (cexStartingBinding, UpdateAction.noop)
    ∧ (applyTask cexStartingBinding wTask).2 ≠ UpdateAction.raise := by
  constructor
  · rfl
  · intro h
    cases h

/-- C5: the guard flags are true exactly while their operation is in
flight.  `attachingToTask` is reset unconditionally when `server.attach`
settles — on success without rethrow, on failure with the failure rethrown
to the caller; the surface's open and open-failure signals reset
`starting` (afterwards it is set only if the re-evaluation issued a fresh
start); and a run of `update` raises a flag only when it issues the
corresponding operation. -/
theorem guard_flags_reset (b : BindingState) :
    attachResolved b true = ({ b with attaching := false }, false)
    ∧ attachResolved b false = ({ b with attaching := false }, true)
    ∧ (onDidOpenReset b).starting = false
    ∧ ((onDidOpenStep b).1.starting = true → (onDidOpenStep b).2 = UpdateAction.startIssued)
    ∧ ((onDidOpenFailureStep b).1.starting = true →
        (onDidOpenFailureStep b).2 = UpdateAction.startIssued)
    ∧ ((updateFn b).1.starting = true →
        b.starting = true ∨ (updateFn b).2 = UpdateAction.startIssued)
    ∧ ((updateFn b).1.attaching = true →
        b.attaching = true ∨ ∃ i r, (updateFn b).2 = UpdateAction.attachIssued i r) := by
  refine ⟨rfl, rfl, rfl, ?_, ?_, ?_, ?_⟩
  · intro h
    rcases updateFn_shape (onDidOpenReset b) with h1 | h1 | ⟨_, _, h1⟩ | ⟨_, _, _, h1⟩ <;>
      simp [onDidOpenStep, h1] at h ⊢ <;> simp [onDidOpenReset] at h
  · intro h
    rcases updateFn_shape (onDidOpenReset b) with h1 | h1 | ⟨_, _, h1⟩ | ⟨_, _, _, h1⟩ <;>
      simp [onDidOpenFailureStep, h1] at h ⊢ <;> simp [onDidOpenReset] at h
  · intro h
    rcases updateFn_shape b with h1 | h1 | ⟨_, _, h1⟩ | ⟨_, _, _, h1⟩ <;> simp [h1] at h ⊢ <;>
      simp [h]
  · intro h
    rcases updateFn_shape b with h1 | h1 | ⟨_, _, h1⟩ | ⟨_, _, rt, h1⟩ <;> simp [h1] at h ⊢ <;>
      simp [h]

/-- C10: the wrapped `attachTerminal` never returns an invalid resolved id —
when the surface's own attach resolves with an invalid id, a fresh
underlying terminal process is created and its id returned; a valid
resolved id is returned unchanged without creating anything. -/
theorem attachTerminalWrapped_spec (attachResult createResult : Int) :
    (validateId attachResult = true →
      attachTerminalWrapped attachResult createResult = (attachResult, false))
    ∧ (validateId attachResult = false →
      attachTerminalWrapped attachResult createResult = (createResult, true)) := by
  constructor <;> intro h <;> simp [attachTerminalWrapped, h]

/-! ### Binding-table theorems -/

theorem lookupT_eraseT_self (table : TermTable) (id : Str) :
    lookupT (eraseT table id) id = Option.none := by
  induction table with
  | nil => rfl
  | cons e rest ih =>
    by_cases h : e.1 = id <;> simp [eraseT, lookupT, h, ih]

theorem lookupT_eraseT_ne (table : TermTable) (k id : Str) (h : k ≠ id) :
    lookupT (eraseT table k) id = lookupT table id := by
  induction table with
  | nil => rfl
  | cons e rest ih =>
    obtain ⟨ek, eb⟩ := e
    by_cases hk : ek = k
    · subst hk
      simp [eraseT, lookupT, h, ih]
    · simp [eraseT, lookupT, hk, ih]

theorem lookupT_setT_ne (table : TermTable) (k id : Str) (b : BindingState) (h : k ≠ id) :
    lookupT (setT table k b) id = lookupT table id := by
  induction table with
  | nil => simp [setT, lookupT, h]
  | cons e rest ih =>
    obtain ⟨ek, eb⟩ := e
    by_cases hk : ek = k
    · subst hk
      simp [setT, lookupT, h]
    · simp [setT, lookupT, hk, ih]

theorem lookupT_setT_self (table : TermTable) (k : Str) (b : BindingState) :
    lookupT (setT table k b) k = some b := by
  induction table with
  | nil => simp [setT, lookupT]
  | cons e rest ih =>
    obtain ⟨ek, eb⟩ := e
    by_cases hk : ek = k
    · subst hk
      simp [setT, lookupT]
    · simp [setT, lookupT, hk, ih]

theorem disposeCount_cons (k : Str) (a : UpdateAction) (log : List (Str × UpdateAction)) (id : Str) :
    disposeCount ((k, a) :: log) id =
      (if k = id ∧ a = UpdateAction.dispose then 1 else 0) + disposeCount log id := by
  simp only [disposeCount, List.filter]
  by_cases h1 : k = id
  · by_cases h2 : a = UpdateAction.dispose
    · subst h1
      subst h2
      simp [Nat.add_comm]
    · subst h1
      simp [h2]
  · simp [h1]

theorem disposeCount_append (l1 l2 : List (Str × UpdateAction)) (id : Str) :
    disposeCount (l1 ++ l2) id = disposeCount l1 id + disposeCount l2 id := by
  simp [disposeCount, List.filter_append]

/-- A batch never touches an identifier the table does not hold: its binding
stays absent and it is never disposed (`updateTerminals` looks bindings up
and never inserts). -/
theorem updateTerminals_absent (ts : List GitpodTask) (table : TermTable) (id : Str)
    (h : lookupT table id = Option.none) :
    lookupT (updateTerminals table ts).1 id = Option.none
    ∧ disposeCount (updateTerminals table ts).2 id = 0 := by
  induction ts generalizing table with
  | nil => exact ⟨h, rfl⟩
  | cons t ts ih =>
    simp only [updateTerminals]
    rcases hl : lookupT table (toTerminalId t.id) with _ | b
    · exact ih table h
    · have hne : toTerminalId t.id ≠ id := by
        rintro rfl
        rw [h] at hl
        cases hl
      set a := (applyTask b t).2 with ha
      by_cases hd : a = UpdateAction.dispose
      · have h' : lookupT (eraseT table (toTerminalId t.id)) id = Option.none := by
          rw [lookupT_eraseT_ne table _ id hne]
          exact h
        have hrest := ih (eraseT table (toTerminalId t.id)) h'
        simp only [← ha, hd, if_pos rfl]
        refine ⟨hrest.1, ?_⟩
        rw [disposeCount_cons]
        simp [hne, hrest.2]
      · have h' : lookupT (setT table (toTerminalId t.id) (applyTask b t).1) id = Option.none := by
          rw [lookupT_setT_ne table _ id _ hne]
          exact h
        have hrest := ih (setT table (toTerminalId t.id) (applyTask b t).1) h'
        simp only [← ha, hd, if_neg hd]
        refine ⟨hrest.1, ?_⟩
        rw [disposeCount_cons]
        simp [hne, hrest.2]

/-- Once the batch stream never sees the identifier in the table, no batch
disposes it. -/
theorem processBatches_absent (bs : List (List GitpodTask)) (table : TermTable) (id : Str)
    (h : lookupT table id = Option.none) :
    lookupT (processBatches table bs).1 id = Option.none
    ∧ disposeCount (processBatches table bs).2 id = 0 := by
  induction bs generalizing table with
  | nil => exact ⟨h, rfl⟩
  | cons batch more ih =>
    simp only [processBatches]
    have h1 := updateTerminals_absent batch table id h
    have h2 := ih (updateTerminals table batch).1 h1.1
    exact ⟨h2.1, by rw [disposeCount_append, h1.2, h2.2]⟩

/-- Applying a batch that contains a CLOSED task whose binding is present:
the binding is disposed exactly once within the batch and removed from the
table. -/
theorem updateTerminals_closed_mem (ts : List GitpodTask) (table : TermTable) (t : GitpodTask)
    (hmem : t ∈ ts) (hc : t.state = GitpodTaskState.closed)
    (hb : ∃ b, lookupT table (toTerminalId t.id) = some b) :
    lookupT (updateTerminals table ts).1 (toTerminalId t.id) = Option.none
    ∧ disposeCount (updateTerminals table ts).2 (toTerminalId t.id) = 1 := by
  induction ts generalizing table with
  | nil => cases hmem
  | cons t' ts ih =>
    cases hmem with
    | head =>
      obtain ⟨b, hl⟩ := hb
      simp only [updateTerminals]
      rw [hl]
      have hdisp : applyTask b t = ({ b with task := some t, disposed := true },
          UpdateAction.dispose) :=
        updateFn_closed { b with task := some t } t rfl hc
      have h' : lookupT (eraseT table (toTerminalId t.id)) (toTerminalId t.id) = Option.none :=
        lookupT_eraseT_self table (toTerminalId t.id)
      have hrest := updateTerminals_absent ts (eraseT table (toTerminalId t.id))
        (toTerminalId t.id) h'
      simp [hdisp, disposeCount_cons, hrest.1, hrest.2]
    | tail _ hmem =>
      simp only [updateTerminals]
      rcases hl : lookupT table (toTerminalId t'.id) with _ | b'
      · exact ih table hmem hb
      · by_cases hd : (applyTask b' t').2 = UpdateAction.dispose
        · by_cases hsame : toTerminalId t'.id = toTerminalId t.id
          · have h' : lookupT (eraseT table (toTerminalId t'.id)) (toTerminalId t.id) =
                Option.none := by
              rw [hsame]
              exact lookupT_eraseT_self table (toTerminalId t.id)
            have hrest := updateTerminals_absent ts (eraseT table (toTerminalId t'.id))
              (toTerminalId t.id) h'
            rw [hsame] at hrest
            simp [hd, hsame, disposeCount_cons, hrest.1, hrest.2]
          · have h' : ∃ bb, lookupT (eraseT table (toTerminalId t'.id)) (toTerminalId t.id) =
                some bb := by
              rw [lookupT_eraseT_ne table _ _ hsame]
              exact hb
            have hrest := ih (eraseT table (toTerminalId t'.id)) hmem h'
            simp [hd, hsame, disposeCount_cons, hrest.1, hrest.2]
        · by_cases hsame : toTerminalId t'.id = toTerminalId t.id
          · have h' : ∃ bb, lookupT (setT table (toTerminalId t'.id) (applyTask b' t').1)
                (toTerminalId t.id) = some bb := by
              rw [hsame]
              exact ⟨(applyTask b' t').1, lookupT_setT_self table (toTerminalId t.id) _⟩
            have hrest := ih (setT table (toTerminalId t'.id) (applyTask b' t').1) hmem h'
            simp [hd, disposeCount_cons, hrest.1, hrest.2]
          · have h' : ∃ bb, lookupT (setT table (toTerminalId t'.id) (applyTask b' t').1)
                (toTerminalId t.id) = some bb := by
              rw [lookupT_setT_ne table _ _ _ hsame]
              exact hb
            have hrest := ih (setT table (toTerminalId t'.id) (applyTask b' t').1) hmem h'
            simp [hd, hsame, disposeCount_cons, hrest.1, hrest.2]

/-- C3: a CLOSED task disposes its bound surface immediately — whatever the
guard flags, i.e. even with a start or attach in flight — exactly once
across the whole batch stream: the dispose removes the binding from the
table, so later batches (and later occurrences in the same batch) no longer
reach it; and the completion of an in-flight attach on a disposed binding
only clears the flag, raising nothing. -/
theorem closed_task_disposed_once (table : TermTable) (batch : List GitpodTask)
    (more : List (List GitpodTask)) (t : GitpodTask) (b : BindingState)
    (hb : lookupT table (toTerminalId t.id) = some b)
    (hc : t.state = GitpodTaskState.closed)
    (hmem : t ∈ batch) :
    disposeCount (processBatches table (batch :: more)).2 (toTerminalId t.id) = 1
    ∧ lookupT (processBatches table (batch :: more)).1 (toTerminalId t.id) = Option.none
    ∧ (∀ b' : BindingState,
        applyTask b' t = ({ b' with task := some t, disposed := true }, UpdateAction.dispose))
    ∧ (∀ b' : BindingState, b'.disposed = true →
        attachResolved b' true = ({ b' with attaching := false }, false)) := by
  have h1 := updateTerminals_closed_mem batch table t hmem hc ⟨b, hb⟩
  have h2 := processBatches_absent more (updateTerminals table batch).1 (toTerminalId t.id) h1.1
  refine ⟨?_, ?_, ?_, ?_⟩
  · simp only [processBatches]
    rw [disposeCount_append, h1.2, h2.2]
  · simp only [processBatches]
    exact h2.1
  · intro b'
    exact updateFn_closed { b' with task := some t } t rfl hc
  · intro b' _
    rfl

/-! ### Update serializer theorems -/

/-- A link that has run never changes again: a single step preserves its
recorded outcome (so no enqueued function ever runs twice). -/
theorem ranAt_mono {throws : Nat → Bool} {s s' : ChainState} (hstep : ChainStep throws s s')
    (k : Nat) (b : Bool) (h : s.links[k]? = some (LinkState.ran b)) :
    s'.links[k]? = some (LinkState.ran b) := by
  cases hstep with
  | settleGate l => exact h
  | enqueue g l =>
    have h' : l[k]? = some (LinkState.ran b) := h
    have hlt : k < l.length := (List.getElem?_eq_some.mp h').1
    show (l ++ [LinkState.waiting])[k]? = some (LinkState.ran b)
    rw [List.getElem?_append_left hlt]
    exact h'
  | runJob g l k0 hw hp =>
    have h' : l[k]? = some (LinkState.ran b) := h
    have hk : k0 ≠ k := by
      intro hh
      subst hh
      rw [hw] at h'
      cases h'
    show (l.set k0 (LinkState.ran (throws k0)))[k]? = some (LinkState.ran b)
    rw [List.getElem?_set_ne hk]
    exact h'

/-- The two execution invariants of the chain, by induction along
reachability: a link has run only if every earlier link has run (with
either outcome), and a link has run only after the gate settled. -/
theorem chainReach_invariant (throws : Nat → Bool) (s : ChainState) (h : ChainReach throws s) :
    (∀ k, ranAt s (k + 1) → ranAt s k) ∧ (∀ k, ranAt s k → s.gateSettled = true) := by
  induction h with
  | refl =>
    constructor <;> intro k hk <;> (obtain ⟨b, hb⟩ := hk; simp [chainInit] at hb)
  | tail hsteps hstep ih =>
    obtain ⟨ihord, ihgate⟩ := ih
    cases hstep with
    | settleGate l =>
      exact ⟨fun k hk => ihord k hk, fun k hk => rfl⟩
    | enqueue g l =>
      constructor
      · intro k hk
        obtain ⟨b, hb⟩ := hk
        have hb : (l ++ [LinkState.waiting])[k + 1]? = some (LinkState.ran b) := hb
        by_cases hlt : k + 1 < l.length
        · rw [List.getElem?_append_left hlt] at hb
          obtain ⟨b', hb'⟩ := ihord k ⟨b, hb⟩
          have hb' : l[k]? = some (LinkState.ran b') := hb'
          have hlt' : k < l.length := (List.getElem?_eq_some.mp hb').1
          refine ⟨b', ?_⟩
          show (l ++ [LinkState.waiting])[k]? = some (LinkState.ran b')
          rw [List.getElem?_append_left hlt']
          exact hb'
        · rw [List.getElem?_append_right (Nat.le_of_not_lt hlt)] at hb
          rcases hj : k + 1 - l.length with _ | m <;> rw [hj] at hb <;> simp at hb
      · intro k hk
        obtain ⟨b, hb⟩ := hk
        have hb : (l ++ [LinkState.waiting])[k]? = some (LinkState.ran b) := hb
        by_cases hlt : k < l.length
        · rw [List.getElem?_append_left hlt] at hb
          exact ihgate k ⟨b, hb⟩
        · rw [List.getElem?_append_right (Nat.le_of_not_lt hlt)] at hb
          rcases hj : k - l.length with _ | m <;> rw [hj] at hb <;> simp at hb
    | runJob g l k0 hw hp =>
      have hg : g = true := by
        rcases k0 with _ | j
        · exact hp
        · obtain ⟨b, hb⟩ := hp
          exact ihgate j ⟨b, hb⟩
      constructor
      · intro k hk
        obtain ⟨b, hb⟩ := hk
        have hb : (l.set k0 (LinkState.ran (throws k0)))[k + 1]? = some (LinkState.ran b) := hb
        have hk0lt : k0 < l.length := (List.getElem?_eq_some.mp hw).1
        by_cases hkk : k = k0
        · subst hkk
          exact ⟨throws k, List.getElem?_set_eq_of_lt _ hk0lt⟩
        · by_cases hk1 : k + 1 = k0
          · subst hk1
            obtain ⟨b', hb'⟩ := hp
            refine ⟨b', ?_⟩
            show (l.set (k + 1) (LinkState.ran (throws (k + 1))))[k]? = some (LinkState.ran b')
            rw [List.getElem?_set_ne (fun hh => hkk hh.symm)]
            exact hb'
          · rw [List.getElem?_set_ne (fun hh => hk1 hh.symm)] at hb
            obtain ⟨b', hb'⟩ := ihord k ⟨b, hb⟩
            have hb' : l[k]? = some (LinkState.ran b') := hb'
            refine ⟨b', ?_⟩
            show (l.set k0 (LinkState.ran (throws k0)))[k]? = some (LinkState.ran b')
            rw [List.getElem?_set_ne (fun hh => hkk hh.symm)]
            exact hb'
      · intro k hk
        exact hg

/-- C1: update batches enqueued on the serializer run strictly in enqueue
order — a link has run only when every earlier link has settled (with
either outcome) — each enqueued function runs at most once (a link that has
run is frozen by every further step), and a predecessor that threw does not
block its successor: the successor's run step is enabled on a rejected
predecessor exactly as on a fulfilled one. -/
theorem serializer_ordered (throws : Nat → Bool) (s : ChainState) (h : ChainReach throws s) :
    (∀ k, ranAt s (k + 1) → ranAt s k)
    ∧ (∀ (s' : ChainState) (k : Nat) (b : Bool), ChainStep throws s s' →
        s.links[k]? = some (LinkState.ran b) →
        s'.links[k]? = some (LinkState.ran b))
    ∧ (∀ k, s.links[k + 1]? = some LinkState.waiting →
        s.links[k]? = some (LinkState.ran true) →
        ChainStep throws s
          ⟨s.gateSettled, s.links.set (k + 1) (LinkState.ran (throws (k + 1)))⟩) := by
  refine ⟨(chainReach_invariant throws s h).1, ?_, ?_⟩
  · intro s' k b hstep hb
    exact ranAt_mono hstep k b hb
  · intro k hw hp
    exact ChainStep.runJob s.gateSettled s.links (k + 1) hw ⟨true, hp⟩

/-- The throw pattern of the C1 witness: every enqueued function throws. -/
def throwsW : Nat → Bool := fun _ => true

/-- The C1 witness state: gate settled, first function ran (and threw),
second still pending. -/
def chainW : ChainState := ⟨true, [LinkState.ran true, LinkState.waiting]⟩

/-- `chainW` is reachable: enqueue twice, resolve the gate, run link 0. -/
theorem chainReachW : ChainReach throwsW chainW := by
  have h1 : ChainStep throwsW ⟨false, []⟩ ⟨false, [LinkState.waiting]⟩ :=
    ChainStep.enqueue false []
  have h2 : ChainStep throwsW ⟨false, [LinkState.waiting]⟩
      ⟨false, [LinkState.waiting, LinkState.waiting]⟩ :=
    ChainStep.enqueue false [LinkState.waiting]
  have h3 : ChainStep throwsW ⟨false, [LinkState.waiting, LinkState.waiting]⟩
      ⟨true, [LinkState.waiting, LinkState.waiting]⟩ :=
    ChainStep.settleGate _
  have h4 : ChainStep throwsW ⟨true, [LinkState.waiting, LinkState.waiting]⟩ chainW :=
    ChainStep.runJob true [LinkState.waiting, LinkState.waiting] 0 rfl rfl
  exact Relation.ReflTransGen.head h1 (Relation.ReflTransGen.head h2
    (Relation.ReflTransGen.head h3 (Relation.ReflTransGen.single h4)))

/-- C1 witness: the ordering, at-most-once and no-blocking properties at the
concrete reachable state `chainW`, whose first function threw. -/
theorem serializer_ordered_witness :
    (∀ k, ranAt chainW (k + 1) → ranAt chainW k)
    ∧ (∀ (s' : ChainState) (k : Nat) (b : Bool), ChainStep throwsW chainW s' →
        chainW.links[k]? = some (LinkState.ran b) →
        s'.links[k]? = some (LinkState.ran b))
    ∧ (∀ k, chainW.links[k + 1]? = some LinkState.waiting →
        chainW.links[k]? = some (LinkState.ran true) →
        ChainStep throwsW chainW
          ⟨chainW.gateSettled, chainW.links.set (k + 1) (LinkState.ran (throwsW (k + 1)))⟩) :=
  serializer_ordered throwsW chainW chainReachW

/-- C2: no enqueued update runs before the gate — the deferred initial
layout step, which occupies the head of the queue from construction — has
settled: in every reachable serializer state, a link that has run implies
the gate resolved, and the head link's scheduling condition is exactly the
gate's resolution. -/
theorem initial_layout_first (throws : Nat → Bool) (s : ChainState) (h : ChainReach throws s) :
    (∀ (k : Nat) (b : Bool), s.links[k]? = some (LinkState.ran b) → s.gateSettled = true)
    ∧ (predSettled s 0 ↔ s.gateSettled = true) := by
  refine ⟨?_, Iff.rfl⟩
  intro k b hb
  exact (chainReach_invariant throws s h).2 k ⟨b, hb⟩

/-- The throw pattern of the C2 witness: no enqueued function throws. -/
def throwsW2 : Nat → Bool := fun _ => false

/-- The C2 witness state: gate settled, the one enqueued function ran. -/
def chainW2 : ChainState := ⟨true, [LinkState.ran false]⟩

/-- `chainW2` is reachable: enqueue, resolve the gate, run link 0. -/
theorem chainReachW2 : ChainReach throwsW2 chainW2 := by
  have h1 : ChainStep throwsW2 ⟨false, []⟩ ⟨false, [LinkState.waiting]⟩ :=
    ChainStep.enqueue false []
  have h2 : ChainStep throwsW2 ⟨false, [LinkState.waiting]⟩ ⟨true, [LinkState.waiting]⟩ :=
    ChainStep.settleGate _
  have h3 : ChainStep throwsW2 ⟨true, [LinkState.waiting]⟩ chainW2 :=
    ChainStep.runJob true [LinkState.waiting] 0 rfl rfl
  exact Relation.ReflTransGen.head h1 (Relation.ReflTransGen.head h2
    (Relation.ReflTransGen.single h3))

/-- C2 witness: the gating property at the concrete reachable state
`chainW2`. -/
theorem initial_layout_first_witness :
    (∀ (k : Nat) (b : Bool), chainW2.links[k]? = some (LinkState.ran b) → chainW2.gateSettled = true)
    ∧ (predSettled chainW2 0 ↔ chainW2.gateSettled = true) :=
  initial_layout_first throwsW2 chainW2 chainReachW2

/-! ### Initial layout reconciler theorems -/

/-- Skipping CLOSED tasks is all the reconciler does with them: the run over
a snapshot equals the run over the snapshot with its CLOSED tasks filtered
out. -/
theorem layoutTasks_filter_closed (cf af : Str → Bool) (ts : List GitpodTask)
    (table : TermTable) (ref : Option Str) :
    layoutTasks cf af ts table ref =
      layoutTasks cf af (ts.filter fun t => t.state != GitpodTaskState.closed) table ref := by
  induction ts generalizing table ref with
  | nil => rfl
  | cons t ts ih =>
    by_cases hc : t.state = GitpodTaskState.closed
    · have hft : (t.state != GitpodTaskState.closed) = false := by simp [hc]
      simp only [List.filter_cons, hft, Bool.false_eq_true, if_false]
      simp only [layoutTasks, if_pos hc]
      exact ih table ref
    · have hft : (t.state != GitpodTaskState.closed) = true := by simp [hc]
      simp only [List.filter_cons, hft, if_true]
      simp only [layoutTasks, if_neg hc]
      rcases hl : lookupT table (toTerminalId t.id) with _ | b
      · rcases hp : t.presentation with _ | p
        · rw [ih table ref]
        · by_cases hcf : cf (toTerminalId t.id)
          · simp only [if_pos hcf]
            rw [ih table ref]
          · by_cases haf : af (toTerminalId t.id)
            · simp only [if_neg hcf, if_pos haf]
              rw [ih (setT table (toTerminalId t.id) newBinding) ref]
            · simp only [if_neg hcf, if_neg haf]
              rw [ih (setT table (toTerminalId t.id) newBinding) (some (toTerminalId t.id))]
      · exact ih table (some (toTerminalId t.id))

/-- The reconciler's per-task loop emits none of the default-terminal
fallback actions. -/
theorem layoutTasks_no_default (cf af : Str → Bool) (ts : List GitpodTask)
    (table : TermTable) (ref : Option Str) :
    LayoutAction.createDefault ∉ (layoutTasks cf af ts table ref).2
    ∧ LayoutAction.startDefault ∉ (layoutTasks cf af ts table ref).2
    ∧ LayoutAction.openDefault ∉ (layoutTasks cf af ts table ref).2 := by
  induction ts generalizing table ref with
  | nil => simp [layoutTasks]
  | cons t ts ih =>
    by_cases hc : t.state = GitpodTaskState.closed
    · simp only [layoutTasks, if_pos hc]
      exact ih table ref
    · simp only [layoutTasks, if_neg hc]
      rcases hl : lookupT table (toTerminalId t.id) with _ | b
      · rcases hp : t.presentation with _ | p
        · have h := ih table ref
          simp [h.1, h.2.1, h.2.2]
        · by_cases hcf : cf (toTerminalId t.id)
          · have h := ih table ref
            simp [hcf, h.1, h.2.1, h.2.2]
          · by_cases haf : af (toTerminalId t.id)
            · have h := ih (setT table (toTerminalId t.id) newBinding) ref
              simp [hcf, haf, h.1, h.2.1, h.2.2]
            · have h := ih (setT table (toTerminalId t.id) newBinding) (some (toTerminalId t.id))
              simp [hcf, haf, h.1, h.2.1, h.2.2]
      · exact ih table (some (toTerminalId t.id))

/-- C8: the initial layout reconciler processes the snapshot in order and
skips exactly the CLOSED tasks; for a non-closed task without a bound
surface it creates one — id the derived identifier, kind `gitpod-task`,
title the presentation name, `useServerTitle` off — and places it relative
to the previously placed terminal with the requested area/mode or the
defaults `bottom` / `tab-after`; and a per-task failure only logs and never
aborts the processing of the remaining tasks: a creation failure (throwing
`newTerminal`, or a missing presentation) leaves the table and the
placement reference untouched, while a placement failure (throwing
`activateTerminal`) occurs after the created widget was registered, so the
widget stays in the table and only the advance of the placement reference
is skipped. -/
theorem initial_layout_reconciler (cf af : Str → Bool) :
    (∀ (ts : List GitpodTask) (table : TermTable) (ref : Option Str),
      layoutTasks cf af ts table ref =
        layoutTasks cf af (ts.filter fun t => t.state != GitpodTaskState.closed) table ref)
    ∧ (∀ (t : GitpodTask) (ts : List GitpodTask) (table : TermTable) (ref : Option Str)
        (p : TaskPresentation),
        t.state ≠ GitpodTaskState.closed →
        lookupT table (toTerminalId t.id) = Option.none →
        t.presentation = some p →
        cf (toTerminalId t.id) = false →
        af (toTerminalId t.id) = false →
        layoutTasks cf af (t :: ts) table ref =
          ((layoutTasks cf af ts (setT table (toTerminalId t.id) newBinding)
              (some (toTerminalId t.id))).1,
            LayoutAction.create (toTerminalId t.id) gitpodTaskKind p.name false ::
              LayoutAction.activate (toTerminalId t.id) ref (orFalsy p.openIn defaultArea)
                (orFalsy p.openMode defaultMode) ::
              (layoutTasks cf af ts (setT table (toTerminalId t.id) newBinding)
                (some (toTerminalId t.id))).2))
    ∧ (∀ (t : GitpodTask) (ts : List GitpodTask) (table : TermTable) (ref : Option Str),
        t.state ≠ GitpodTaskState.closed →
        lookupT table (toTerminalId t.id) = Option.none →
        (cf (toTerminalId t.id) = true ∨ t.presentation = Option.none) →
        layoutTasks cf af (t :: ts) table ref =
          ((layoutTasks cf af ts table ref).1,
            LayoutAction.logError :: (layoutTasks cf af ts table ref).2))
    ∧ (∀ (t : GitpodTask) (ts : List GitpodTask) (table : TermTable) (ref : Option Str)
        (p : TaskPresentation),
        t.state ≠ GitpodTaskState.closed →
        lookupT table (toTerminalId t.id) = Option.none →
        t.presentation = some p →
        cf (toTerminalId t.id) = false →
        af (toTerminalId t.id) = true →
        layoutTasks cf af (t :: ts) table ref =
          ((layoutTasks cf af ts (setT table (toTerminalId t.id) newBinding) ref).1,
            LayoutAction.create (toTerminalId t.id) gitpodTaskKind p.name false ::
              LayoutAction.logError ::
              (layoutTasks cf af ts (setT table (toTerminalId t.id) newBinding) ref).2)) := by
  refine ⟨fun ts table ref => layoutTasks_filter_closed cf af ts table ref, ?_, ?_, ?_⟩
  · intro t ts table ref p hc hl hp hcf haf
    simp [layoutTasks, hc, hl, hp, hcf, haf]
  · intro t ts table ref hc hl hfail
    rcases hfail with hcf | hp
    · rcases hpp : t.presentation with _ | p
      · simp [layoutTasks, hc, hl, hpp]
      · simp [layoutTasks, hc, hl, hpp, hcf]
    · simp [layoutTasks, hc, hl, hp]
  · intro t ts table ref p hc hl hp hcf haf
    simp [layoutTasks, hc, hl, hp, hcf, haf]

/-- The presentation of the C8 scenario task: a name, no placement
requests. -/
def scenarioPres : TaskPresentation :=
  { name := 't' :: '1' :: [], openIn := Option.none, openMode := Option.none }

/-- The C8 scenario task: `{id: "t1", state: RUNNING, terminal: "r1"}`. -/
def scenarioTask : GitpodTask :=
  { id := 't' :: '1' :: [], state := GitpodTaskState.running,
    terminal := some ('r' :: '1' :: []), presentation := some scenarioPres }

/-- The C8 scenario of the spec: snapshot `[{id: "t1", state: RUNNING,
terminal: "r1"}]` (with a presentation) and no pre-existing bound surface:
the reconciler creates the surface `gitpod-task-terminal:t1` and places it
with the defaults `bottom` / `tab-after`. -/
theorem initial_layout_scenario :
    layoutTasks (fun _ => false) (fun _ => false) [scenarioTask] [] Option.none =
      ([(toTerminalId ('t' :: '1' :: []), newBinding)],
        [LayoutAction.create (toTerminalId ('t' :: '1' :: [])) gitpodTaskKind
            ('t' :: '1' :: []) false,
          LayoutAction.activate (toTerminalId ('t' :: '1' :: [])) Option.none
            defaultArea defaultMode]) := by
  rfl

/-- The placement-failure path at a concrete input: `activateTerminal`
throws for the scenario task after `newTerminal` registered the widget, so
the widget stays in the table, the failure is logged, and the placement
reference stays unchanged for the tasks that follow. -/
theorem placement_failure_scenario :
    layoutTasks (fun _ => false) (fun _ => true) [scenarioTask] [] Option.none =
      ([(toTerminalId ('t' :: '1' :: []), newBinding)],
        [LayoutAction.create (toTerminalId ('t' :: '1' :: [])) gitpodTaskKind
            ('t' :: '1' :: []) false,
          LayoutAction.logError]) := by
  rfl

/-- C9: after the per-task loop, the default-terminal fallback actions —
create one default terminal, start it, open it — are appended exactly when
the UI holds zero terminal surfaces of any kind, and the per-task loop
itself never emits them, so when they appear they appear exactly once. -/
theorem default_terminal_fallback (cf af : Str → Bool) (tasks : List GitpodTask)
    (table : TermTable) (otherTerminals : Nat) :
    (onDidInitializeLayoutModel cf af tasks table otherTerminals).2 =
      (layoutTasks cf af tasks table Option.none).2 ++
        (if otherTerminals + (layoutTasks cf af tasks table Option.none).1.length = 0 then
          [LayoutAction.createDefault, LayoutAction.startDefault, LayoutAction.openDefault]
        else [])
    ∧ LayoutAction.createDefault ∉ (layoutTasks cf af tasks table Option.none).2
    ∧ LayoutAction.startDefault ∉ (layoutTasks cf af tasks table Option.none).2
    ∧ LayoutAction.openDefault ∉ (layoutTasks cf af tasks table Option.none).2 := by
  refine ⟨?_, layoutTasks_no_default cf af tasks table Option.none⟩
  by_cases h : otherTerminals + (layoutTasks cf af tasks table Option.none).1.length = 0 <;>
    simp [onDidInitializeLayoutModel, h]

/-- The C9 scenario of the spec: empty initial task list and zero
pre-existing surfaces — exactly one default terminal is created, started
and opened. -/
theorem default_terminal_scenario :
    onDidInitializeLayoutModel (fun _ => false) (fun _ => false) [] [] 0 =
      ([], [LayoutAction.createDefault, LayoutAction.startDefault,
        LayoutAction.openDefault]) := by
  rfl

/-- The CLOSED task of the C3 witness. -/
def wClosedTask : GitpodTask :=
  { id := 't' :: '1' :: [], state := GitpodTaskState.closed,
    terminal := some ('r' :: '1' :: []), presentation := Option.none }

/-- C3 witness: a concrete table holding the binding, a batch containing the
CLOSED task, and one further batch repeating it. -/
theorem closed_task_disposed_once_witness :
    disposeCount (processBatches [(toTerminalId ('t' :: '1' :: []), wStartBinding)]
      ([wClosedTask] :: [[wClosedTask]])).2 (toTerminalId wClosedTask.id) = 1
    ∧ lookupT (processBatches [(toTerminalId ('t' :: '1' :: []), wStartBinding)]
        ([wClosedTask] :: [[wClosedTask]])).1 (toTerminalId wClosedTask.id) = Option.none
    ∧ (∀ b' : BindingState, applyTask b' wClosedTask =
        ({ b' with task := some wClosedTask, disposed := true }, UpdateAction.dispose))
    ∧ (∀ b' : BindingState, b'.disposed = true →
        attachResolved b' true = ({ b' with attaching := false }, false)) :=
  closed_task_disposed_once [(toTerminalId ('t' :: '1' :: []), wStartBinding)]
    [wClosedTask] [[wClosedTask]] wClosedTask wStartBinding (by decide) rfl
    (List.mem_singleton.mpr rfl)

end GitpodTaskContrib
